import Mathlib

set_option maxRecDepth 100000

/-
Shallow embedding of the rhisto library (src/lib.rs): a delimiter-separated
column parser (`ColumnParser` / `parse_row` / `Rows`) and an f32 histogram
builder (`Histogram::from_values`).

IEEE-754 binary32 (Rust `f32`) is modelled exactly.  A finite float carries
its exact value as a rational number (custom type `Q`, kept in lowest terms
so that structural equality is value equality); arithmetic rounds the exact
rational result to nearest-even at 24-bit precision with exponent range
[-149, 253] and overflow to infinity, following IEEE 754.  NaN is a single
value and the two IEEE zeros are conflated into one (no claim depends on the
sign of zero).  `usize` is 64-bit; `x as usize` saturates as in Rust.
A Rust panic (out-of-bounds `bins[i]`) is modelled by `Option`: `none` means
the function panics.
-/

namespace Rhisto

/-- Exact rational numbers: numerator and positive denominator, kept in
lowest terms by the smart constructor `Q.mk'`.  All operations are
structurally recursive so that the kernel can evaluate them. -/
structure Q where
  num : Int
  den : Nat
deriving DecidableEq

/-- Euclid's algorithm with explicit fuel (structural recursion, so it
reduces in the kernel).  `ngcd (a+1) a b` computes `gcd a b`. -/
def ngcd (fuel : Nat) (a b : Nat) : Nat :=
  match fuel with
  | 0 => b
  | f + 1 => if a = 0 then b else ngcd f (b % a) a

/-- Build a rational in lowest terms from a numerator and a positive
denominator. -/
def Q.mk' (n : Int) (d : Nat) : Q :=
  let g := ngcd (n.natAbs + 1) n.natAbs d
  ⟨Int.tdiv n (g : Int), d / g⟩

def Q.ofInt (n : Int) : Q := ⟨n, 1⟩

def Q.neg (a : Q) : Q := ⟨-a.num, a.den⟩

def Q.add (a b : Q) : Q :=
  Q.mk' (a.num * (b.den : Int) + b.num * (a.den : Int)) (a.den * b.den)

def Q.sub (a b : Q) : Q := a.add b.neg

def Q.mul (a b : Q) : Q := Q.mk' (a.num * b.num) (a.den * b.den)

def Q.inv (a : Q) : Q :=
  if a.num < 0 then ⟨-(a.den : Int), a.num.natAbs⟩ else ⟨(a.den : Int), a.num.natAbs⟩

def Q.div (a b : Q) : Q := a.mul b.inv

def Q.blt (a b : Q) : Bool := decide (a.num * (b.den : Int) < b.num * (a.den : Int))

def Q.ble (a b : Q) : Bool := decide (a.num * (b.den : Int) ≤ b.num * (a.den : Int))

def Q.floor (a : Q) : Int := Int.fdiv a.num (a.den : Int)

/-- Round a rational to the nearest integer, ties to even. -/
def rne (q : Q) : Int :=
  let n := q.floor
  let f := q.sub (Q.ofInt n)
  if f.blt ⟨1, 2⟩ then n
  else if (Q.blt ⟨1, 2⟩ f) then n + 1
  else if n % 2 = 0 then n else n + 1

/-- Two to the power `k` as an exact rational, for any integer `k`. -/
def qpow2 (k : Int) : Q :=
  if 0 ≤ k then ⟨(2 : Int) ^ k.toNat, 1⟩ else ⟨1, 2 ^ (-k).toNat⟩

/-- Floor of the base-2 logarithm of a natural number (fuel-based so it
reduces in the kernel); `natLog2 n n = Nat.log2 n`. -/
def natLog2 : Nat → Nat → Nat
  | 0, _ => 0
  | f + 1, n => if 2 ≤ n then natLog2 f (n / 2) + 1 else 0

/-- Floor of the base-2 logarithm of a positive rational. -/
def qlog2 (a : Q) : Int :=
  let k : Int := (natLog2 a.num.toNat a.num.toNat : Int) - (natLog2 a.den a.den : Int)
  if a.blt (qpow2 k) then k - 1 else k

/-- IEEE-754 binary32 (Rust `f32`), with finite values carried exactly.
`inf true` is negative infinity, `inf false` positive infinity. -/
inductive Float32 where
  | nan : Float32
  | inf : Bool → Float32
  | fin : Q → Float32
deriving DecidableEq

/-- Round a positive rational to the nearest binary32 value (nearest-even,
24-bit significand, exponent range down to the subnormal 2^-149, overflow
at 2^128 to +infinity). -/
def roundPosF32 (a : Q) : Float32 :=
  let E := qlog2 a
  let e := max (E - 23) (-149)
  let m := rne (a.mul (qpow2 (-e)))
  let v := (Q.ofInt m).mul (qpow2 e)
  if (qpow2 128).ble v then Float32.inf false else Float32.fin v

def fneg : Float32 → Float32
  | .nan => .nan
  | .inf b => .inf (!b)
  | .fin v => .fin v.neg

/-- Round an exact rational to the nearest binary32 value. -/
def roundF32 (q : Q) : Float32 :=
  if q.num = 0 then .fin ⟨0, 1⟩
  else if q.num < 0 then fneg (roundPosF32 q.neg)
  else roundPosF32 q

/-- IEEE binary32 addition (Rust `+` on f32). -/
def fadd : Float32 → Float32 → Float32
  | .nan, _ => .nan
  | _, .nan => .nan
  | .inf b1, .inf b2 => if b1 = b2 then .inf b1 else .nan
  | .inf b, .fin _ => .inf b
  | .fin _, .inf b => .inf b
  | .fin a, .fin b => roundF32 (a.add b)

/-- IEEE binary32 subtraction (Rust `-` on f32). -/
def fsub (x y : Float32) : Float32 := fadd x (fneg y)

/-- IEEE binary32 multiplication (Rust `*` on f32). -/
def fmul : Float32 → Float32 → Float32
  | .nan, _ => .nan
  | _, .nan => .nan
  | .inf b1, .inf b2 => .inf (b1 != b2)
  | .inf b, .fin a => if a.num = 0 then .nan else .inf (b != decide (a.num < 0))
  | .fin a, .inf b => if a.num = 0 then .nan else .inf (b != decide (a.num < 0))
  | .fin a, .fin b => roundF32 (a.mul b)

/-- IEEE binary32 division (Rust `/` on f32). -/
def fdiv : Float32 → Float32 → Float32
  | .nan, _ => .nan
  | _, .nan => .nan
  | .inf _, .inf _ => .nan
  | .inf b, .fin a => .inf (b != decide (a.num < 0))
  | .fin _, .inf _ => .fin ⟨0, 1⟩
  | .fin a, .fin b =>
    if b.num = 0 then (if a.num = 0 then .nan else .inf (decide (a.num < 0)))
    else roundF32 (a.div b)

/-- Total order test on non-NaN floats (helper for `fmin` / `fmax`). -/
def fleB : Float32 → Float32 → Bool
  | .inf true, _ => true
  | _, .inf false => true
  | .fin a, .fin b => a.ble b
  | _, _ => false

/-- Rust `f32::min`: the smaller argument; if one argument is NaN, the
other is returned. -/
def fmin : Float32 → Float32 → Float32
  | .nan, y => y
  | x, .nan => x
  | x, y => if fleB x y then x else y

/-- Rust `f32::max`: the larger argument; if one argument is NaN, the
other is returned. -/
def fmax : Float32 → Float32 → Float32
  | .nan, y => y
  | x, .nan => x
  | x, y => if fleB x y then y else x

/-- Rust `f32::next_up`: the least binary32 value greater than the
argument (NaN and positive infinity map to themselves; negative infinity
maps to `-f32::MAX`). -/
def next_up : Float32 → Float32
  | .nan => .nan
  | .inf false => .inf false
  | .inf true => .fin ⟨-((2 : Int) ^ 128 - 2 ^ 104), 1⟩
  | .fin v =>
    if v.num = 0 then .fin ⟨1, 2 ^ 149⟩
    else if 0 < v.num then
      let E := qlog2 v
      let e := max (E - 23) (-149)
      let m := rne (v.mul (qpow2 (-e)))
      let w := (Q.ofInt (m + 1)).mul (qpow2 e)
      if (qpow2 128).ble w then .inf false else .fin w
    else
      let a := v.neg
      let E := qlog2 a
      let e := max (E - 23) (-149)
      let m := rne (a.mul (qpow2 (-e)))
      if m = 2 ^ 23 ∧ -149 < e then .fin ((Q.ofInt (2 ^ 24 - 1)).mul (qpow2 (e - 1))).neg
      else .fin ((Q.ofInt (m - 1)).mul (qpow2 e)).neg

/-- Rust `f32::trunc`: round toward zero to an integer-valued float. -/
def ftrunc : Float32 → Float32
  | .nan => .nan
  | .inf b => .inf b
  | .fin v => .fin ⟨Int.tdiv v.num (v.den : Int), 1⟩

def USIZE_MAX : Nat := 2 ^ 64 - 1

/-- Rust `as usize` on an f32 (64-bit target): truncate toward zero and
saturate; NaN casts to 0. -/
def castUsize : Float32 → Nat
  | .nan => 0
  | .inf true => 0
  | .inf false => USIZE_MAX
  | .fin v =>
    let t := Int.tdiv v.num (v.den : Int)
    if t < 0 then 0 else if (USIZE_MAX : Int) < t then USIZE_MAX else t.toNat

/-- Rust `n as f32` for a usize `n` (round to nearest even). -/
def natToF32 (n : Nat) : Float32 := roundF32 ⟨(n : Int), 1⟩

/-- A histogram bin: a label and a count (src/lib.rs `struct Bin`). -/
structure Bin where
  label : Float32
  count : Nat
deriving DecidableEq

/-- src/lib.rs `struct Histogram`. -/
structure Histogram where
  bins : List Bin
deriving DecidableEq

/-- The closure of the min/max fold in `Histogram::from_values`, translated
verbatim: the `None` arm returns `Some((f32::INFINITY, f32::NEG_INFINITY))`
(note that the arm ignores the element it is looking at, exactly as the Rust
closure does). -/
def minMaxStep (acc : Option (Float32 × Float32)) (value : Float32) :
    Option (Float32 × Float32) :=
  match acc with
  | some (mn, mx) => some (fmin mn value, fmax mx value)
  | none => some (Float32.inf false, Float32.inf true)

/-- The single-pass min/max fold of `Histogram::from_values`: `fold(None, …)`
over the values with the closure above. -/
def foldMinMax (values : List Float32) : Option (Float32 × Float32) :=
  values.foldl minMaxStep none

/-- The bin-index expression of `Histogram::from_values`:
`((value - min) / (max.next_up() - min) * num_bins as f32).trunc() as usize`. -/
def binIndex (mn mx : Float32) (num_bins : Nat) (value : Float32) : Nat :=
  castUsize (ftrunc (fmul (fdiv (fsub value mn) (fsub (next_up mx) mn)) (natToF32 num_bins)))

/-- The initial bin vector of `Histogram::from_values`:
labels `i as f32 * bin_width + min + bin_width / 2.0`, counts zero. -/
def mkBins (mn bin_width : Float32) (num_bins : Nat) : List Bin :=
  (List.range num_bins).map fun i =>
    { label := fadd (fadd (fmul (natToF32 i) bin_width) mn) (fdiv bin_width (natToF32 2))
      count := 0 }

/-- Rust `bins[i].count += 1`; `none` models the index-out-of-bounds panic. -/
def incrAt : List Bin → Nat → Option (List Bin)
  | [], _ => none
  | b :: rest, 0 => some ({ b with count := b.count + 1 } :: rest)
  | b :: rest, i + 1 => (incrAt rest i).map (b :: ·)

/-- src/lib.rs `Histogram::from_values`.  `none` models a panic. -/
def from_values (values : List Float32) (num_bins : Nat) : Option Histogram :=
  match foldMinMax values with
  | some (mn, mx) =>
    let bin_width := fdiv (fsub mx mn) (natToF32 num_bins)
    (values.foldlM (fun bins value => incrAt bins (binIndex mn mx num_bins value))
      (mkBins mn bin_width num_bins)).map Histogram.mk
  | none => some ⟨[]⟩

/-- src/lib.rs `Histogram::into_bins`. -/
def into_bins (h : Histogram) : List Bin := h.bins

/-- src/lib.rs `Histogram::into_counts`. -/
def into_counts (h : Histogram) : List Nat := h.bins.map Bin.count

/-- src/lib.rs `Histogram::into_labels`. -/
def into_labels (h : Histogram) : List Float32 := h.bins.map Bin.label

/-- src/lib.rs `enum Error`: the only two error variants of the library. -/
inductive Error where
  | InvalidRow : String → Error
  | FailedRead : String → Error
deriving DecidableEq

/-- If the pattern is a leading fragment of the string, return the rest. -/
def matchAt : List Char → List Char → Option (List Char)
  | [], s => some s
  | _, [] => none
  | p :: ps, c :: cs => if p = c then matchAt ps cs else none

/-- Split by a non-empty pattern, Rust `str::split` semantics, with fuel
for structural recursion (fuel `≥` string length never runs out). -/
def splitGo (pat : List Char) : Nat → List Char → List (List Char)
  | _, [] => [[]]
  | 0, s => [s]
  | fuel + 1, c :: cs =>
    match matchAt pat (c :: cs) with
    | some rest => [] :: splitGo pat fuel rest
    | none =>
      match splitGo pat fuel cs with
      | [] => [[c]]
      | t :: ts => (c :: t) :: ts

/-- Rust `str::split`: for a non-empty pattern, the (possibly empty)
fragments between successive non-overlapping matches; an empty pattern
yields an empty fragment between every character and at both ends. -/
def splitRust (s pat : List Char) : List (List Char) :=
  match pat with
  | [] => [] :: (s.map fun c => [c]) ++ [[]]
  | _ :: _ => splitGo pat s.length s

/-- Does `pat` occur as a contiguous run inside `s`? -/
def containsSub (pat : List Char) : List Char → Bool
  | [] => decide (pat = [])
  | c :: cs => (matchAt pat (c :: cs)).isSome || containsSub pat cs

/-- src/lib.rs `struct ColumnParser<T, Reader>`.  The `BufRead` lines
iterator is materialized as the list of results it will yield (`Except
String String`: a read line or an I/O error message); `parse` is the
`T : FromStr` instance (`str::parse::<T>`, `none` = parse failure). -/
structure ColumnParser (T : Type) where
  lines : List (Except String String)
  column : Nat
  delim : String
  parse : String → Option T

/-- The body of `ColumnParser::parse_row` for one fetched line: split by
the delimiter, take the requested column, `Ok(value.parse::<T>().ok())`
if present, `Err(InvalidRow(..))` if the column does not exist,
`Err(FailedRead(..))` if reading the line failed. -/
def parse_line {T : Type} (column : Nat) (delim : String) (parse : String → Option T) :
    Except String String → Except Error (Option T)
  | .ok line =>
    match (splitRust line.data delim.data)[column]? with
    | some value => .ok (parse (String.mk value))
    | none => .error (.InvalidRow ("column " ++ toString column ++ " does not exist in row"))
  | .error e => .error (.FailedRead ("failed to read line: " ++ e))

/-- src/lib.rs `ColumnParser::parse_row`: take the next line (if any) and
process it; returns the item together with the advanced parser state. -/
def parse_row {T : Type} (p : ColumnParser T) :
    Option (Except Error (Option T)) × ColumnParser T :=
  match p.lines with
  | [] => (none, p)
  | l :: rest => (some (parse_line p.column p.delim p.parse l), { p with lines := rest })

/-- The `Rows` iterator (src/lib.rs `Rows::next` just calls `parse_row`),
materialized as the list of every item it yields. -/
def rows {T : Type} (p : ColumnParser T) : List (Except Error (Option T)) :=
  p.lines.map (parse_line p.column p.delim p.parse)

def decDigit (c : Char) : Option Nat :=
  if c.isDigit then some (c.toNat - 48) else none

def decNat (cs : List Char) : Option Nat :=
  match cs with
  | [] => none
  | _ =>
    cs.foldl
      (fun acc c =>
        match acc, decDigit c with
        | some n, some d => some (10 * n + d)
        | _, _ => none)
      (some 0)

/-- Modelled from the Rust standard library (`f32::from_str`, not part of
src/): a reader of plain decimal literals `digits[.digits]`, exact on the
in-range tokens used in this file and failing on non-numeric tokens such
as "not_a_float".  It stands in for the `T : FromStr` parameter of
`ColumnParser`. -/
def parseDecimal (s : String) : Option Q :=
  match splitRust s.data ['.'] with
  | [a] => (decNat a).map fun n => Q.mk' (n : Int) 1
  | [a, b] =>
    match decNat a, decNat b with
    | some n, some f => some (Q.mk' ((n : Int) * (10 : Int) ^ b.length + (f : Int)) (10 ^ b.length))
    | _, _ => none
  | _ => none

/-- Concrete parser state for the bad-token scenario of the spec:
row "4.0,not_a_float,6.0", column 1, delimiter ",". -/
def cpBadToken : ColumnParser Q :=
  { lines := [Except.ok "4.0,not_a_float,6.0"], column := 1, delim := ",", parse := parseDecimal }

/-- Concrete parser state for the missing-column scenario of the spec:
row "4.0", column 1, delimiter ",". -/
def cpMissingCol : ColumnParser Q :=
  { lines := [Except.ok "4.0"], column := 1, delim := ",", parse := parseDecimal }

/-- Missing-column scenario followed by a well-formed second row, to
exhibit that the error does not terminate the row stream. -/
def cpMissingColThen : ColumnParser Q :=
  { lines := [Except.ok "4.0", Except.ok "0,1"], column := 1, delim := ",", parse := parseDecimal }

/-- Concrete parser state with an in-range, parseable column (column 2 of
"4.0,not_a_float,6.0") followed by a further row. -/
def cpInRange : ColumnParser Q :=
  { lines := [Except.ok "4.0,not_a_float,6.0", Except.ok "x"], column := 2, delim := ",",
    parse := parseDecimal }

/-- Is the item an error?  (Used to state that a result is not `Err(..)`
of any kind.) -/
def isErrB {T : Type} : Except Error (Option T) → Bool
  | .error _ => true
  | .ok _ => false


instance {e a : Type} [DecidableEq e] [DecidableEq a] : DecidableEq (Except e a) := fun x y =>
  match x, y with
  | .ok u, .ok v =>
    if h : u = v then .isTrue (congrArg Except.ok h)
    else .isFalse fun hc => h (by injection hc)
  | .error u, .error v =>
    if h : u = v then .isTrue (congrArg Except.error h)
    else .isFalse fun hc => h (by injection hc)
  | .ok _, .error _ => .isFalse fun hc => by injection hc
  | .error _, .ok _ => .isFalse fun hc => by injection hc

/-- A successful `bins[i].count += 1` raises the total count by one. -/
theorem incrAt_sum (bins : List Bin) : ∀ (i : Nat) (bins2 : List Bin),
    incrAt bins i = some bins2 →
    (bins2.map Bin.count).sum = (bins.map Bin.count).sum + 1 := by
  induction bins with
  | nil => intro i bins2 h; simp [incrAt] at h
  | cons b rest ih =>
    intro i bins2 h
    cases i with
    | zero =>
      simp only [incrAt, Option.some.injEq] at h
      subst h
      simp
      omega
    | succ j =>
      simp only [incrAt] at h
      rw [Option.map_eq_some'] at h
      obtain ⟨r2, hr2, rfl⟩ := h
      simp [ih j r2 hr2]
      omega

/-- Folding the increments over the values adds one per value whenever the
whole fold succeeds. -/
theorem foldlM_incr_sum (mn mx : Float32) (num_bins : Nat) :
    ∀ (values : List Float32) (bins bins2 : List Bin),
      List.foldlM (fun bs v => incrAt bs (binIndex mn mx num_bins v)) bins values = some bins2 →
      (bins2.map Bin.count).sum = (bins.map Bin.count).sum + values.length := by
  intro values
  induction values with
  | nil =>
    intro bins bins2 h
    simp [List.foldlM] at h
    subst h
    simp
  | cons v vs ih =>
    intro bins bins2 h
    rw [List.foldlM_cons] at h
    cases hstep : incrAt bins (binIndex mn mx num_bins v) with
    | none => rw [hstep] at h; simp at h
    | some mid =>
      rw [hstep] at h
      have h1 := ih mid bins2 h
      have h2 := incrAt_sum bins _ mid hstep
      simp [h1, h2]
      omega

/-- The freshly built bin vector has total count zero. -/
theorem mkBins_sum (mn w : Float32) (n : Nat) :
    ((mkBins mn w n).map Bin.count).sum = 0 := by
  refine List.sum_eq_zero ?_
  intro x hx
  simp [mkBins] at hx
  obtain ⟨i, _, rfl⟩ := hx
  rfl

/-- The min/max fold starting from a `some` accumulator stays `some`. -/
theorem foldl_minMaxStep_isSome (l : List Float32) : ∀ (p : Float32 × Float32),
    (List.foldl minMaxStep (some p) l).isSome := by
  induction l with
  | nil => intro p; rfl
  | cons x xs ih =>
    intro p
    obtain ⟨mn, mx⟩ := p
    exact ih (fmin mn x, fmax mx x)

/-- On a non-empty value list the min/max fold returns `some`. -/
theorem foldMinMax_cons_ne_none (v : Float32) (vs : List Float32) :
    foldMinMax (v :: vs) ≠ none := by
  intro hc
  have h := foldl_minMaxStep_isSome vs (Float32.inf false, Float32.inf true)
  have he : foldMinMax (v :: vs) =
      List.foldl minMaxStep (some (Float32.inf false, Float32.inf true)) vs := rfl
  rw [he] at hc
  rw [hc] at h
  simp at h

/-- C1: every histogram that `Histogram::from_values` returns has bin counts
whose sum equals the number of input values (with `num_bins ≥ 1` as in the
claim; runs on which the code panics return no histogram and are the
subject of C3). -/
theorem from_values_counts_sum (values : List Float32) (num_bins : Nat)
    (_hn : 1 ≤ num_bins) (h : Histogram)
    (hfv : from_values values num_bins = some h) :
    (into_counts h).sum = values.length := by
  unfold from_values at hfv
  cases hmm : foldMinMax values with
  | none =>
    rw [hmm] at hfv
    simp only [Option.some.injEq] at hfv
    cases values with
    | nil => subst hfv; simp [into_counts]
    | cons v vs => exact absurd hmm (foldMinMax_cons_ne_none v vs)
  | some p =>
    obtain ⟨mn, mx⟩ := p
    rw [hmm] at hfv
    simp only [Option.map_eq_some'] at hfv
    obtain ⟨bins2, hfold, rfl⟩ := hfv
    have := foldlM_incr_sum mn mx num_bins values _ bins2 hfold
    simpa [into_counts, mkBins_sum] using this

/-- Witness for C1 at `values = [1.0]`, `num_bins = 1` (the returned single
bin holds the one value; its label is NaN because the buggy fold left
`min = +inf`, `max = -inf`, but the count invariant holds). -/
theorem from_values_counts_sum_witness :
    from_values [Float32.fin ⟨1, 1⟩] 1 = some ⟨[⟨Float32.nan, 1⟩]⟩ ∧
    (into_counts ⟨[⟨Float32.nan, 1⟩]⟩).sum = [Float32.fin ⟨1, 1⟩].length := by
  have hfv : from_values [Float32.fin ⟨1, 1⟩] 1 = some ⟨[⟨Float32.nan, 1⟩]⟩ := by decide
  exact ⟨hfv, from_values_counts_sum _ _ (by decide) _ hfv⟩

/-- C2 (code bug): on input `[0.0, 1.0]` the single-pass fold yields
`(1.0, 1.0)` — not the true minimum `0.0` and maximum `1.0` — because the
`None` arm of the fold closure discards the first value instead of seeding
the accumulator with it. -/
theorem foldMinMax_drops_first :
    foldMinMax [Float32.fin ⟨0, 1⟩, Float32.fin ⟨1, 1⟩] =
      some (Float32.fin ⟨1, 1⟩, Float32.fin ⟨1, 1⟩) := by decide

/-- C3 (code bug): `Histogram::from_values([10.0, 0.0], 1)` panics (modelled
as `none`): the fold's min/max is `(0.0, 0.0)` (the first value 10.0 was
dropped), the bin index of 10.0 is `(10 / 2^-149).trunc() as usize`, which
overflows to `+inf` and saturates to `usize::MAX`, and `bins[usize::MAX]`
is out of bounds. -/
theorem from_values_panics :
    from_values [Float32.fin ⟨10, 1⟩, Float32.fin ⟨0, 1⟩] 1 = none := by decide

/-- C4 (code bug): with `min = -2^126`, `max = 2^126` and `num_bins = 1`,
the bin index of `x = max` is `1 = num_bins`, outside `[0, num_bins)`: in
f32, `max.next_up() - min = 2^127 + 2^103` rounds back down to
`2^127 = max - min`, so the quotient at `x = max` is exactly `1.0` and the
`next_up` guard fails to keep the maximum in the last bin. -/
theorem binIndex_overflows_at_max :
    binIndex (Float32.fin ⟨-((2 : Int) ^ 126), 1⟩) (Float32.fin ⟨(2 : Int) ^ 126, 1⟩) 1
      (Float32.fin ⟨(2 : Int) ^ 126, 1⟩) = 1 := by decide

/-- C5: on an empty value list `Histogram::from_values` returns the empty
histogram (zero bins) for every `num_bins`, and does not fail. -/
theorem from_values_empty (num_bins : Nat) : from_values [] num_bins = some ⟨[]⟩ := rfl

/-- C6: ten copies of `5.0` with `num_bins = 4` produce counts
`[10, 0, 0, 0]` — all observations in bin 0 — without crashing, despite the
bin width degenerating to zero. -/
theorem from_values_identical_values :
    (from_values (List.replicate 10 (Float32.fin ⟨5, 1⟩)) 4).map into_counts =
      some [10, 0, 0, 0] := by decide

/-- C7: values `[2,1,2,3,3,2,0,1,1,1]` with `num_bins = 3` produce counts
`[5, 3, 2]` and labels `[0.5, 1.5, 2.5]`. -/
theorem from_values_end_to_end :
    (from_values [Float32.fin ⟨2, 1⟩, Float32.fin ⟨1, 1⟩, Float32.fin ⟨2, 1⟩,
        Float32.fin ⟨3, 1⟩, Float32.fin ⟨3, 1⟩, Float32.fin ⟨2, 1⟩, Float32.fin ⟨0, 1⟩,
        Float32.fin ⟨1, 1⟩, Float32.fin ⟨1, 1⟩, Float32.fin ⟨1, 1⟩] 3).map
      (fun h => (into_counts h, into_labels h)) =
      some ([5, 3, 2], [Float32.fin ⟨1, 2⟩, Float32.fin ⟨3, 2⟩, Float32.fin ⟨5, 2⟩]) := by
  decide

/-- C8 counterexample: on row "4.0,not_a_float,6.0", column 1, delimiter
",", `parse_row` returns `Some(Ok(None))` — a successfully skipped row, not
an error of any kind — refuting the claimed `FailedParse` error (the
library's `Error` type has no such variant). -/
theorem parse_row_bad_token_not_error :
    (parse_row cpBadToken).1 = some (Except.ok none) ∧
    ((parse_row cpBadToken).1.map isErrB) = some false :=
  ⟨by decide, by decide⟩

/-- C8 amended: whenever the token at the requested column exists but fails
to parse, `parse_row` yields `Ok(None)` — the row is skipped with no
error. -/
theorem parse_row_bad_token_skips {T : Type} (p : ColumnParser T) (line : String)
    (rest : List (Except String String)) (tok : List Char)
    (hl : p.lines = Except.ok line :: rest)
    (ht : (splitRust line.data p.delim.data)[p.column]? = some tok)
    (hp : p.parse (String.mk tok) = none) :
    (parse_row p).1 = some (Except.ok none) := by
  simp [parse_row, hl, parse_line, ht, hp]

/-- Witness for the amended C8 at the spec's own example row. -/
theorem parse_row_bad_token_skips_witness :
    (parse_row cpBadToken).1 = some (Except.ok none) :=
  parse_row_bad_token_skips cpBadToken "4.0,not_a_float,6.0" [] "not_a_float".data rfl
    (by decide) (by decide)

/-- C9 counterexample: on row "4.0", column 1, delimiter ",", `parse_row`
fails with `InvalidRow "column 1 does not exist in row"`: the error names
the column index but does not carry the row text, refuting the claimed
`MissingColumn(row_text, index)` payload (and the library's `Error` type
has no `MissingColumn` variant). -/
theorem parse_row_missing_column_payload :
    (parse_row cpMissingCol).1 =
      some (Except.error (Error.InvalidRow "column 1 does not exist in row")) ∧
    containsSub "4.0".data "column 1 does not exist in row".data = false :=
  ⟨by decide, by decide⟩

/-- C9 amended: when the requested column index is out of range after
splitting, `parse_row` fails with the per-row error
`InvalidRow("column {i} does not exist in row")`, and the parser advances
past the line, so the row stream is not terminated. -/
theorem parse_row_missing_column {T : Type} (p : ColumnParser T) (line : String)
    (rest : List (Except String String))
    (hl : p.lines = Except.ok line :: rest)
    (hc : (splitRust line.data p.delim.data)[p.column]? = none) :
    (parse_row p).1 =
      some (Except.error (Error.InvalidRow
        ("column " ++ toString p.column ++ " does not exist in row"))) ∧
    (parse_row p).2.lines = rest := by
  constructor <;> simp [parse_row, hl, parse_line, hc]

/-- Witness for the amended C9: the missing-column row is followed by a
well-formed row that the stream still reaches. -/
theorem parse_row_missing_column_witness :
    (parse_row cpMissingColThen).1 =
      some (Except.error (Error.InvalidRow "column 1 does not exist in row")) ∧
    (parse_row cpMissingColThen).2.lines = [Except.ok "0,1"] := by
  have h := parse_row_missing_column cpMissingColThen "4.0" [Except.ok "0,1"] rfl (by decide)
  exact ⟨h.1.trans (by decide), h.2⟩

/-- C10: on a successfully read line whose requested column exists after
splitting, `parse_row` never returns an error: the item is
`Ok(token.parse().ok())` (so an unparsable token gives `Ok(None)`), and the
parser advances to the remaining lines, so the `Rows` iterator continues. -/
theorem parse_row_in_range {T : Type} (p : ColumnParser T) (line : String)
    (rest : List (Except String String)) (tok : List Char)
    (hl : p.lines = Except.ok line :: rest)
    (ht : (splitRust line.data p.delim.data)[p.column]? = some tok) :
    (parse_row p).1 = some (Except.ok (p.parse (String.mk tok))) ∧
    (parse_row p).2.lines = rest := by
  constructor <;> simp [parse_row, hl, parse_line, ht]

/-- Witness for C10 at column 2 of "4.0,not_a_float,6.0" (token "6.0"). -/
theorem parse_row_in_range_witness :
    (parse_row cpInRange).1 = some (Except.ok (some (⟨6, 1⟩ : Q))) ∧
    (parse_row cpInRange).2.lines = [Except.ok "x"] := by
  have h := parse_row_in_range cpInRange "4.0,not_a_float,6.0" [Except.ok "x"] "6.0".data rfl
    (by decide)
  exact ⟨h.1.trans (by decide), h.2⟩

end Rhisto
